import Mathlib

/-!
Shallow embedding of the inference / re-ranking pipeline of
`app.py` ("AI Animal Disease Diagnosis v4.0").

The core covered here (mirroring the spec's scope) is the block guarded by
the Diagnose button: validity gate on the maximum raw probability, keyword
species detection, per-disease species penalty with renormalization, stable
descending sort, top-3 truncation, confidence banding and the alert flag.
Probabilities are modelled as exact rationals (`ℚ`); the external classifier
is a parameter: the pipeline takes the raw distribution (the list of
(disease, probability) pairs in the classifier's class order) as input.
-/

namespace AnimalDiseaseAI

/-- `disease_si` from `app.py` lines 15-31: disease (lowercase key) → Sinhala
display name. -/
def disease_si : List (String × String) :=
  [("parvovirus", "පාර්වෝ වෛරස් රෝගය (බල්ලා)"),
   ("distemper", "ඩිස්ටෙම්පර් රෝගය (බල්ලා)"),
   ("skin_allergy", "සම අසාත්මිකතාව (බල්ලා / පූසා)"),
   ("mastitis", "ස්තන ආසාදනය (ගවයා)"),
   ("foot_and_mouth", "පා සහ මුව රෝගය (ගවයා)"),
   ("bovine_diarrhea", "ගවයාගේ දියවැඩියාව"),
   ("bovine_tuberculosis", "ගවයාගේ ටියුබර්කියුලෝසිස් (TB)"),
   ("feline_allergy", "පූසාගේ සම අසාත්මිකතාව"),
   ("feline_arthritis", "පූසාගේ අස්ථි රෝගය"),
   ("feline_panleukopenia", "පූසාගේ පෑන්ලියුකෝපෙනියා"),
   ("feline_uti", "පූසාගේ මූත්‍රා පද්ධති ආසාදනය (UTI)"),
   ("arthritis", "අස්ථි සන්ධි රෝගය (බල්ලා / ගවයා)"),
   ("ketosis", "කීටෝසිස් (ගවයා)"),
   ("kidney_disease", "වකුගඩු රෝගය (බල්ලා / පූසා)"),
   ("rhinotracheitis", "රයිනෝට්‍රැකයිටිස් (පූසා)")]

/-- `disease_species` from `app.py` lines 34-50: disease → species tag.
Values may be a single species or an underscore-separated set. -/
def disease_species : List (String × String) :=
  [("Parvovirus", "dog"),
   ("Distemper", "dog"),
   ("Skin_Allergy", "dog_cat"),
   ("Arthritis", "dog_cow"),
   ("Kidney_Disease", "dog_cat"),
   ("Feline_Panleukopenia", "cat"),
   ("Rhinotracheitis", "cat"),
   ("Feline_UTI", "cat"),
   ("Feline_Allergy", "cat"),
   ("Feline_Arthritis", "cat"),
   ("Mastitis", "cow"),
   ("Foot_and_Mouth", "cow"),
   ("Bovine_Diarrhea", "cow"),
   ("Bovine_Tuberculosis", "cow"),
   ("Ketosis", "cow")]

/-- `species_keywords` from `app.py` lines 53-57, in dict insertion order:
dog, cat, cow. -/
def species_keywords : List (String × List String) :=
  [("dog", ["dog", "බල්ලා", "canine"]),
   ("cat", ["cat", "පූසා", "feline"]),
   ("cow", ["cow", "ගවයා", "cattle", "ගෝමිය"])]

/-- `seqStarts n h` : the character sequence `n` occurs at the start of `h`. -/
def seqStarts : List Char → List Char → Bool
  | [], _ => true
  | _ :: _, [] => false
  | a :: as, b :: bs => a == b && seqStarts as bs

/-- `seqHasSub n h` : the character sequence `n` occurs contiguously somewhere
in `h` (Python's `n in h` on strings). -/
def seqHasSub (n : List Char) : List Char → Bool
  | [] => n.isEmpty
  | b :: bs => seqStarts n (b :: bs) || seqHasSub n bs

/-- Python's substring test `needle in hay`. -/
def substrB (needle hay : String) : Bool :=
  seqHasSub needle.data hay.data

/-- Python's `str.lower()`, as a structural map over the characters (the
keywords and inputs involved are ASCII or Sinhala, on which this agrees with
Unicode lowercasing). -/
def lowerStr (s : String) : String :=
  String.mk (s.data.map Char.toLower)

/-- Whitespace test for Python's `str.strip()`. -/
def isSpaceChar (c : Char) : Bool :=
  c == ' ' || c == '\t' || c == '\n' || c == '\r'

/-- Python's `str.strip()` on the character list: drop whitespace from both
ends. -/
def trimChars (s : List Char) : List Char :=
  ((s.dropWhile isSpaceChar).reverse.dropWhile isSpaceChar).reverse

/-- Python's `not s.strip()` (blank or whitespace-only input). -/
def isBlank (s : String) : Bool :=
  (trimChars s.data).isEmpty

/-- `app.py` lines 137-146: iterate species in `species_keywords` order; the
first species one of whose keywords occurs in the lowercased input wins; the
inner/outer `break` makes any later species unreachable. -/
def detectSpecies (input : String) : Option String :=
  let txt := lowerStr input
  species_keywords.findSome? fun e =>
    if e.2.any (fun k => substrB k txt) then some e.1 else none

/-- The penalty factor `0.05` from `app.py` lines 160 and 163. -/
def penaltyFactor : ℚ := 5 / 100

/-- Python's `"_" in dspecies` (the tag alphabet has no multi-char needle
subtlety: the needle is the single character `'_'`). -/
def hasUnderscore (s : String) : Bool :=
  s.data.any fun c => c == '_'

/-- Python's `dspecies.split("_")` on the character list. -/
def splitChars (acc : List Char) : List Char → List (List Char)
  | [] => [acc.reverse]
  | c :: cs => if c == '_' then acc.reverse :: splitChars [] cs
               else splitChars (c :: acc) cs

/-- Python's `dspecies.split("_")` returning strings. -/
def splitTags (s : String) : List String :=
  (splitChars [] s.data).map String.mk

/-- `app.py` lines 151-163, body of the per-disease loop: look the disease up
verbatim in `disease_species`; when a species was detected and the disease is
tagged, multiply by `0.05` if the tag (a single species, or an
underscore-separated set to be split) does not cover the detected species. -/
def penalizeProb (detected : Option String) (d : String) (p : ℚ) : ℚ :=
  match detected, disease_species.lookup d with
  | some sp, some dspecies =>
    if hasUnderscore dspecies then
      if sp ∈ splitTags dspecies then p else p * penaltyFactor
    else
      if sp ≠ dspecies then p * penaltyFactor else p
  | _, _ => p

/-- Sum of the probabilities of a (disease, probability) list
(`sum([p for _, p in adjusted])`). -/
def sumProbs (l : List (String × ℚ)) : ℚ :=
  (l.map Prod.snd).sum

/-- The `adjusted` list built by the loop of `app.py` lines 149-164: every
entry penalized in place, in the order of `all_df`. -/
def penalizedList (detected : Option String) (dist : List (String × ℚ)) :
    List (String × ℚ) :=
  dist.map fun e => (e.1, penalizeProb detected e.1 e.2)

/-- `app.py` lines 166-171: renormalize the penalized list by its total.
When the total is `≤ 0` the source rebuilds the *same already-penalized*
list (`adjusted = [(d, p) for d, p in adjusted]`, a no-op — kept here as the
identity map) and replaces a zero re-computed total by `1.0`
(`sum(...) or 1.0`); it does NOT return to the pre-penalty values. -/
def speciesAdjust (detected : Option String) (dist : List (String × ℚ)) :
    List (String × ℚ) :=
  if sumProbs (penalizedList detected dist) ≤ 0 then
    ((penalizedList detected dist).map fun e => (e.1, e.2)).map fun e =>
      (e.1,
       e.2 /
         (if sumProbs ((penalizedList detected dist).map fun e => (e.1, e.2)) = 0
          then 1
          else sumProbs ((penalizedList detected dist).map fun e => (e.1, e.2))))
  else
    (penalizedList detected dist).map fun e =>
      (e.1, e.2 / sumProbs (penalizedList detected dist))

/-- Stable insertion into a descending-by-probability list: the new element
(coming EARLIER in the input list) is placed before the first element whose
probability is `≤` its own, so equal probabilities keep input order. -/
def insertDesc (x : String × ℚ) : List (String × ℚ) → List (String × ℚ)
  | [] => [x]
  | y :: ys => if y.2 ≤ x.2 then x :: y :: ys else y :: insertDesc x ys

/-- Stable descending sort by probability, modelling Python's
`sorted(adjusted, key=lambda x: x[1], reverse=True)` (guaranteed stable) and
the `pandas` pre-sort of `all_df` on line 131. -/
def sortDesc : List (String × ℚ) → List (String × ℚ)
  | [] => []
  | x :: xs => insertDesc x (sortDesc xs)

/-- Severity band of `app.py` lines 188-197 (`conf >= 50` / `conf >= 20` /
otherwise). -/
inductive Band
  | high
  | medium
  | low
deriving DecidableEq

/-- Band from a confidence percentage, as the `if`/`elif`/`else` chain of
`app.py` lines 188-197. -/
def bandOf (conf : ℚ) : Band :=
  if 50 ≤ conf then Band.high
  else if 20 ≤ conf then Band.medium
  else Band.low

/-- Python's `d.strip().lower()`. -/
def stripLower (d : String) : String :=
  String.mk ((trimChars d.data).map Char.toLower)

/-- `app.py` lines 184-185: Sinhala display name looked up under
`disease.strip().lower()`, with a placeholder when absent. -/
def displayName (d : String) : String :=
  match disease_si.lookup (stripLower d) with
  | some siname => siname
  | none => "— සිංහල නාමය නොමැත —"

/-- Failure outcomes of a diagnosis request (spec §7 taxonomy restricted to
the outcomes the embedded core itself decides). -/
inductive Failure
  | emptyInput
  | invalidSymptoms
deriving DecidableEq

/-- The delivered result of a successful request: detected species, the top-3
entries (disease, adjusted probability), the banded display rows
(disease, display name, confidence %, band), and the alert flag. -/
structure DiagnosisResult where
  detected : Option String
  top3 : List (String × ℚ)
  banded : List (String × String × ℚ × Band)
  alert_triggered : Bool
deriving DecidableEq

/-- The valid-input path of the handler, `app.py` lines 137-214, applied to
`all_df` (the raw distribution already sorted descending by raw probability):
species detection, penalty adjustment, stable descending sort, top-3
truncation, banding, and the alert flag accumulated exactly as the display
loop does (`alert_triggered = True` once some `conf >= 50`). -/
def rankPipeline (input : String) (all_df : List (String × ℚ)) :
    DiagnosisResult :=
  let detected := detectSpecies input
  let adjusted := speciesAdjust detected all_df
  let adjusted_sorted := sortDesc adjusted
  let top3 := adjusted_sorted.take 3
  { detected := detected
    top3 := top3
    banded := top3.map fun e => (e.1, displayName e.1, e.2 * 100, bandOf (e.2 * 100))
    alert_triggered := top3.foldl (fun acc e => acc || decide (50 ≤ e.2 * 100)) false }

/-- The diagnose handler, `app.py` lines 115-214, as a function of the raw
input text and the classifier's raw distribution (pairs in class order).
Empty input warns and stops (line 116); `all_df` is the distribution sorted
descending by raw probability (line 131); if its top probability is `< 0.10`
the request fails as invalid symptoms (lines 133-135) and nothing further
runs; otherwise `rankPipeline` delivers the result.  (`all_df.loc[0]` on an
empty frame would raise in pandas; the classifier always emits every class,
so the empty case never arises — it is mapped to the rejection path here.) -/
def run (input : String) (rawDist : List (String × ℚ)) :
    Except Failure DiagnosisResult :=
  if isBlank input then Except.error Failure.emptyInput
  else
    match sortDesc rawDist with
    | [] => Except.error Failure.invalidSymptoms
    | top :: rest =>
      if top.2 < 1 / 10 then Except.error Failure.invalidSymptoms
      else Except.ok (rankPipeline input (top :: rest))

/-- The detected species' tag set excludes species `sp`: the disease is
tagged and `sp` is not covered by the (possibly underscore-joined) tag. -/
def tagExcludes (sp d : String) : Bool :=
  match disease_species.lookup d with
  | none => false
  | some dspecies =>
    if hasUnderscore dspecies then
      decide (sp ∉ splitTags dspecies)
    else
      decide (sp ≠ dspecies)

/-- Keyword hit test for one species' keyword list on a given input
(the inner `for k in keys` loop's condition, factored out). -/
def keywordHit (input : String) (keys : List String) : Bool :=
  keys.any fun k => substrB k (lowerStr input)

/-- A one-disease raw distribution used to exercise the pipeline on a
concrete successful request. -/
def demoDist : List (String × ℚ) := [("Parvovirus", 1)]

/-- The delivered result of `run "dog sick" demoDist`. -/
def demoRes : DiagnosisResult :=
  { detected := some "dog"
    top3 := [("Parvovirus", 1)]
    banded := [("Parvovirus", "පාර්වෝ වෛරස් රෝගය (බල්ලා)", 100, Band.high)]
    alert_triggered := true }

theorem penaltyFactor_pos : 0 < penaltyFactor := by norm_num [penaltyFactor]

theorem penaltyFactor_le_one : penaltyFactor ≤ 1 := by norm_num [penaltyFactor]

theorem penalize_cases (detected : Option String) (d : String) (p : ℚ) :
    penalizeProb detected d p = p ∨ penalizeProb detected d p = p * penaltyFactor := by
  unfold penalizeProb
  cases detected with
  | none => exact Or.inl rfl
  | some sp =>
    cases disease_species.lookup d with
    | none => exact Or.inl rfl
    | some t =>
      show (if hasUnderscore t = true then
              if sp ∈ splitTags t then p else p * penaltyFactor
            else if sp ≠ t then p * penaltyFactor else p) = p ∨
           (if hasUnderscore t = true then
              if sp ∈ splitTags t then p else p * penaltyFactor
            else if sp ≠ t then p * penaltyFactor else p) = p * penaltyFactor
      split_ifs <;> simp

theorem penalize_none (d : String) (p : ℚ) : penalizeProb none d p = p := rfl

theorem penalize_untagged (detected : Option String) (d : String) (p : ℚ)
    (h : disease_species.lookup d = none) : penalizeProb detected d p = p := by
  unfold penalizeProb
  rw [h]
  cases detected <;> rfl

theorem penalize_of_excludes (sp d : String) (p : ℚ)
    (h : tagExcludes sp d = true) :
    penalizeProb (some sp) d p = p * penaltyFactor := by
  unfold penalizeProb
  unfold tagExcludes at h
  cases hl : disease_species.lookup d with
  | none => rw [hl] at h; exact absurd h (by simp)
  | some t =>
    rw [hl] at h
    replace h : (if hasUnderscore t = true then decide (sp ∉ splitTags t)
                 else decide (sp ≠ t)) = true := h
    show (if hasUnderscore t = true then
            if sp ∈ splitTags t then p else p * penaltyFactor
          else if sp ≠ t then p * penaltyFactor else p) = p * penaltyFactor
    split_ifs at h ⊢ with h1 h2 h3 <;> simp_all

theorem penalize_of_not_excludes (sp d : String) (p : ℚ)
    (h : tagExcludes sp d = false) :
    penalizeProb (some sp) d p = p := by
  unfold penalizeProb
  unfold tagExcludes at h
  cases hl : disease_species.lookup d with
  | none => rfl
  | some t =>
    rw [hl] at h
    replace h : (if hasUnderscore t = true then decide (sp ∉ splitTags t)
                 else decide (sp ≠ t)) = false := h
    show (if hasUnderscore t = true then
            if sp ∈ splitTags t then p else p * penaltyFactor
          else if sp ≠ t then p * penaltyFactor else p) = p
    split_ifs at h ⊢ with h1 h2 h3 <;> simp_all

theorem penalize_nonneg (detected : Option String) (d : String) (p : ℚ)
    (hp : 0 ≤ p) : 0 ≤ penalizeProb detected d p := by
  rcases penalize_cases detected d p with h | h <;> rw [h]
  · exact hp
  · exact mul_nonneg hp penaltyFactor_pos.le

theorem penalize_le (detected : Option String) (d : String) (p : ℚ)
    (hp : 0 ≤ p) : penalizeProb detected d p ≤ p := by
  rcases penalize_cases detected d p with h | h <;> rw [h]
  · exact mul_le_of_le_one_right hp penaltyFactor_le_one

theorem penalize_ge_scaled (detected : Option String) (d : String) (p : ℚ)
    (hp : 0 ≤ p) : p * penaltyFactor ≤ penalizeProb detected d p := by
  rcases penalize_cases detected d p with h | h <;> rw [h]
  · exact mul_le_of_le_one_right hp penaltyFactor_le_one

theorem sumProbs_nil : sumProbs [] = 0 := rfl

theorem sumProbs_cons (e : String × ℚ) (l : List (String × ℚ)) :
    sumProbs (e :: l) = e.2 + sumProbs l := rfl

theorem sumProbs_map_div (l : List (String × ℚ)) (t : ℚ) :
    sumProbs (l.map fun e => (e.1, e.2 / t)) = sumProbs l / t := by
  induction l with
  | nil => simp [sumProbs]
  | cons e l ih =>
    simp only [List.map_cons, sumProbs_cons, ih]
    rw [add_div]

theorem sumProbs_map_id (l : List (String × ℚ)) :
    (l.map fun e => (e.1, e.2)) = l := by
  induction l with
  | nil => rfl
  | cons e l ih => simp [ih]

theorem penalizedList_nonneg (detected : Option String)
    (dist : List (String × ℚ)) (hnn : ∀ e ∈ dist, 0 ≤ e.2) :
    ∀ e ∈ penalizedList detected dist, 0 ≤ e.2 := by
  intro e he
  rcases List.mem_map.mp he with ⟨a, ha, rfl⟩
  exact penalize_nonneg detected a.1 a.2 (hnn a ha)

theorem penalizedList_sum_ge (detected : Option String)
    (dist : List (String × ℚ)) (hnn : ∀ e ∈ dist, 0 ≤ e.2) :
    sumProbs dist * penaltyFactor ≤ sumProbs (penalizedList detected dist) := by
  induction dist with
  | nil => simp [penalizedList, sumProbs]
  | cons e l ih =>
    have he : 0 ≤ e.2 := hnn e (List.mem_cons_self e l)
    have hl : ∀ x ∈ l, 0 ≤ x.2 := fun x hx => hnn x (List.mem_cons_of_mem e hx)
    simp only [penalizedList, List.map_cons, sumProbs_cons] at ih ⊢
    rw [add_mul]
    exact add_le_add (penalize_ge_scaled detected e.1 e.2 he) (ih hl)

theorem penalizedList_sum_pos (detected : Option String)
    (dist : List (String × ℚ)) (hnn : ∀ e ∈ dist, 0 ≤ e.2)
    (hsum : sumProbs dist = 1) :
    0 < sumProbs (penalizedList detected dist) := by
  have h := penalizedList_sum_ge detected dist hnn
  rw [hsum, one_mul] at h
  exact lt_of_lt_of_le penaltyFactor_pos h

theorem penaltyFactor_le_total (detected : Option String)
    (dist : List (String × ℚ)) (hnn : ∀ e ∈ dist, 0 ≤ e.2)
    (hsum : sumProbs dist = 1) :
    penaltyFactor ≤ sumProbs (penalizedList detected dist) := by
  have h := penalizedList_sum_ge detected dist hnn
  rwa [hsum, one_mul] at h

theorem speciesAdjust_of_pos (detected : Option String)
    (dist : List (String × ℚ))
    (h : 0 < sumProbs (penalizedList detected dist)) :
    speciesAdjust detected dist =
      (penalizedList detected dist).map fun e =>
        (e.1, e.2 / sumProbs (penalizedList detected dist)) := by
  unfold speciesAdjust
  rw [if_neg (not_le.mpr h)]

theorem penaltyFactor_lt_one : penaltyFactor < 1 := by norm_num [penaltyFactor]

theorem sum_map_mul_pf (l : List (String × ℚ)) :
    (l.map fun e => e.2 * penaltyFactor).sum = sumProbs l * penaltyFactor := by
  induction l with
  | nil => simp [sumProbs]
  | cons e l ih => simp only [List.map_cons, List.sum_cons, sumProbs_cons, ih, add_mul]

theorem sumProbs_penalizedList (detected : Option String)
    (dist : List (String × ℚ)) :
    sumProbs (penalizedList detected dist) =
      (dist.map fun e => penalizeProb detected e.1 e.2).sum := by
  simp only [penalizedList, sumProbs, List.map_map]
  rfl

theorem sum_lt_penalized (sp : String) (dist : List (String × ℚ))
    (hnn : ∀ e ∈ dist, 0 ≤ e.2) (hsum : sumProbs dist = 1)
    (hw : ∃ e ∈ dist, tagExcludes sp e.1 = false ∧ 0 < e.2) :
    penaltyFactor < sumProbs (penalizedList (some sp) dist) := by
  have hlt : (dist.map fun e => e.2 * penaltyFactor).sum <
      (dist.map fun e => penalizeProb (some sp) e.1 e.2).sum := by
    apply List.sum_lt_sum
    · intro e he
      exact penalize_ge_scaled (some sp) e.1 e.2 (hnn e he)
    · rcases hw with ⟨e, he, hex, hpos⟩
      refine ⟨e, he, ?_⟩
      rw [penalize_of_not_excludes sp e.1 e.2 hex]
      calc e.2 * penaltyFactor < e.2 * 1 :=
            mul_lt_mul_of_pos_left penaltyFactor_lt_one hpos
        _ = e.2 := mul_one e.2
  rw [sumProbs_penalizedList]
  calc penaltyFactor = sumProbs dist * penaltyFactor := by rw [hsum, one_mul]
    _ = (dist.map fun e => e.2 * penaltyFactor).sum := (sum_map_mul_pf dist).symm
    _ < _ := hlt

theorem mem_insertDesc (a x : String × ℚ) (l : List (String × ℚ)) :
    a ∈ insertDesc x l ↔ a = x ∨ a ∈ l := by
  induction l with
  | nil => simp [insertDesc]
  | cons y ys ih =>
    simp only [insertDesc]
    split_ifs with h
    · simp [List.mem_cons]
    · simp only [List.mem_cons, ih]
      tauto

theorem mem_sortDesc (a : String × ℚ) (l : List (String × ℚ)) :
    a ∈ sortDesc l ↔ a ∈ l := by
  induction l with
  | nil => simp [sortDesc]
  | cons x xs ih => simp [sortDesc, mem_insertDesc, ih]

theorem pairwise_insertDesc (x : String × ℚ) (l : List (String × ℚ))
    (h : l.Pairwise fun a b => b.2 ≤ a.2) :
    (insertDesc x l).Pairwise fun a b => b.2 ≤ a.2 := by
  induction l with
  | nil => simp [insertDesc]
  | cons y ys ih =>
    simp only [insertDesc]
    rcases List.pairwise_cons.mp h with ⟨hy, hys⟩
    split_ifs with hc
    · refine List.pairwise_cons.mpr ⟨?_, h⟩
      intro b hb
      rcases List.mem_cons.mp hb with rfl | hb
      · exact hc
      · exact le_trans (hy b hb) hc
    · refine List.pairwise_cons.mpr ⟨?_, ih hys⟩
      intro b hb
      rcases (mem_insertDesc b x ys).mp hb with rfl | hb
      · exact (not_le.mp hc).le
      · exact hy b hb

theorem pairwise_sortDesc (l : List (String × ℚ)) :
    (sortDesc l).Pairwise fun a b => b.2 ≤ a.2 := by
  induction l with
  | nil => simp [sortDesc]
  | cons x xs ih => exact pairwise_insertDesc x (sortDesc xs) ih

theorem filter_insertDesc (c : ℚ) (x : String × ℚ) (l : List (String × ℚ)) :
    (insertDesc x l).filter (fun e => decide (e.2 = c)) =
      if x.2 = c then x :: l.filter (fun e => decide (e.2 = c))
      else l.filter (fun e => decide (e.2 = c)) := by
  induction l with
  | nil =>
    simp only [insertDesc, List.filter]
    split_ifs with h <;> simp [h]
  | cons y ys ih =>
    simp only [insertDesc]
    by_cases hc : y.2 ≤ x.2
    · rw [if_pos hc]
      by_cases hx : x.2 = c <;> simp [List.filter_cons, hx]
    · rw [if_neg hc]
      by_cases hy : y.2 = c
      · have hx : ¬x.2 = c := fun hxc => hc (le_of_eq (hy.trans hxc.symm))
        simp [List.filter_cons, hy, hx, ih]
      · by_cases hx : x.2 = c <;> simp [List.filter_cons, hy, hx, ih]

theorem filter_sortDesc (c : ℚ) (l : List (String × ℚ)) :
    (sortDesc l).filter (fun e => decide (e.2 = c)) =
      l.filter (fun e => decide (e.2 = c)) := by
  induction l with
  | nil => rfl
  | cons x xs ih =>
    simp only [sortDesc, filter_insertDesc]
    by_cases hx : x.2 = c <;> simp [List.filter_cons, hx, ih]

theorem foldl_or (p : String × ℚ → Bool) (l : List (String × ℚ)) (b : Bool) :
    l.foldl (fun acc e => acc || p e) b = (b || l.any p) := by
  induction l generalizing b with
  | nil => simp
  | cons e l ih => simp [List.any_cons, ih, Bool.or_assoc]

theorem seqStarts_append_left (n1 n2 : List Char) :
    ∀ s, seqStarts (n1 ++ n2) s = true → seqStarts n1 s = true := by
  induction n1 with
  | nil => intro s _; rfl
  | cons a as ih =>
    intro s h
    cases s with
    | nil => exact absurd h (by simp [seqStarts])
    | cons b bs =>
      simp only [List.cons_append, seqStarts, Bool.and_eq_true] at h ⊢
      exact ⟨h.1, ih bs h.2⟩

theorem seqHasSub_append_left (n1 n2 : List Char) :
    ∀ h, seqHasSub (n1 ++ n2) h = true → seqHasSub n1 h = true := by
  intro h
  induction h with
  | nil =>
    intro hh
    simp only [seqHasSub, List.isEmpty_eq_true, List.append_eq_nil] at hh ⊢
    exact hh.1
  | cons b bs ih =>
    intro hh
    simp only [seqHasSub, Bool.or_eq_true] at hh ⊢
    rcases hh with hh | hh
    · exact Or.inl (seqStarts_append_left n1 n2 (b :: bs) hh)
    · exact Or.inr (ih hh)

theorem rankPipeline_top3 (input : String) (all_df : List (String × ℚ)) :
    (rankPipeline input all_df).top3 =
      (sortDesc (speciesAdjust (detectSpecies input) all_df)).take 3 := rfl

theorem rankPipeline_alert (input : String) (all_df : List (String × ℚ)) :
    (rankPipeline input all_df).alert_triggered =
      ((sortDesc (speciesAdjust (detectSpecies input) all_df)).take 3).foldl
        (fun acc e => acc || decide (50 ≤ e.2 * 100)) false := rfl

theorem run_ok_inv (input : String) (dist : List (String × ℚ))
    (r : DiagnosisResult) (h : run input dist = Except.ok r) :
    isBlank input = false ∧
      ∃ top rest, sortDesc dist = top :: rest ∧ ¬top.2 < 1 / 10 ∧
        r = rankPipeline input (top :: rest) := by
  unfold run at h
  by_cases hb : isBlank input
  · rw [if_pos hb] at h
    exact absurd h (by simp)
  · rw [if_neg hb] at h
    refine ⟨Bool.not_eq_true _ ▸ eq_false_of_ne_true hb, ?_⟩
    cases hs : sortDesc dist with
    | nil => rw [hs] at h; exact absurd h (by simp)
    | cons top rest =>
      rw [hs] at h
      replace h : (if top.2 < 1 / 10 then Except.error Failure.invalidSymptoms
          else Except.ok (rankPipeline input (top :: rest))) = Except.ok r := h
      by_cases hg : top.2 < 1 / 10
      · rw [if_pos hg] at h
        exact absurd h (by simp)
      · rw [if_neg hg] at h
        exact ⟨top, rest, rfl, hg, (Except.ok.injEq _ _).mp h.symm⟩

theorem run_eval (input : String) (dist : List (String × ℚ))
    (top : String × ℚ) (rest : List (String × ℚ))
    (hb : isBlank input = false) (hs : sortDesc dist = top :: rest)
    (hg : ¬top.2 < 1 / 10) :
    run input dist = Except.ok (rankPipeline input (top :: rest)) := by
  unfold run
  rw [if_neg (by rw [hb]; exact Bool.false_ne_true), hs]
  show (if top.2 < 1 / 10 then Except.error Failure.invalidSymptoms
        else Except.ok (rankPipeline input (top :: rest))) =
    Except.ok (rankPipeline input (top :: rest))
  rw [if_neg hg]

theorem penalize_some_some (sp tag d : String) (p : ℚ)
    (hl : disease_species.lookup d = some tag) :
    penalizeProb (some sp) d p =
      if hasUnderscore tag = true then
        (if sp ∈ splitTags tag then p else p * penaltyFactor)
      else (if sp ≠ tag then p * penaltyFactor else p) := by
  unfold penalizeProb
  rw [hl]

theorem zip_map_self {α β : Type} (h : α → β) (l : List α) :
    l.zip (l.map h) = l.map fun a => (a, h a) := by
  induction l with
  | nil => rfl
  | cons x xs ih => simp [ih]

theorem run_demo_eval : run "dog sick" demoDist = Except.ok demoRes := by
  have hs : sortDesc demoDist = [("Parvovirus", (1 : ℚ))] := rfl
  rw [run_eval "dog sick" demoDist ("Parvovirus", 1) [] (by decide) hs (by norm_num)]
  have hdet : detectSpecies "dog sick" = some "dog" := by decide
  have hpen : penalizedList (some "dog") [("Parvovirus", (1 : ℚ))] =
      [("Parvovirus", 1)] := rfl
  have hpos : 0 < sumProbs (penalizedList (some "dog") [("Parvovirus", (1 : ℚ))]) := by
    rw [hpen]; norm_num [sumProbs]
  have hadj : speciesAdjust (some "dog") [("Parvovirus", (1 : ℚ))] =
      [("Parvovirus", 1)] := by
    rw [speciesAdjust_of_pos _ _ hpos, hpen]
    norm_num [sumProbs]
  simp only [rankPipeline]
  rw [hdet, hadj]
  have hsort : sortDesc [("Parvovirus", (1 : ℚ))] = [("Parvovirus", 1)] := rfl
  rw [hsort]
  have htake : ([("Parvovirus", (1 : ℚ))]).take 3 = [("Parvovirus", 1)] := rfl
  rw [htake]
  have hmap : [("Parvovirus", (1 : ℚ))].map
      (fun e => (e.1, displayName e.1, e.2 * 100, bandOf (e.2 * 100))) =
      [("Parvovirus", displayName "Parvovirus", (1 : ℚ) * 100,
        bandOf ((1 : ℚ) * 100))] := rfl
  rw [hmap]
  have hfold : [("Parvovirus", (1 : ℚ))].foldl
      (fun acc e => acc || decide (50 ≤ e.2 * 100)) false =
      (false || decide ((50 : ℚ) ≤ 1 * 100)) := rfl
  rw [hfold]
  have hdn : displayName "Parvovirus" = "පාර්වෝ වෛරස් රෝගය (බල්ලා)" := by decide
  have hband : bandOf ((1 : ℚ) * 100) = Band.high := by
    unfold bandOf; rw [if_pos (by norm_num)]
  rw [hdn, hband]
  simp only [demoRes, Except.ok.injEq, DiagnosisResult.mk.injEq, Bool.false_or,
    decide_eq_true_eq]
  norm_num

theorem run_cex_eval :
    (run "cow sick"
        [("Foot_and_Mouth", (1 : ℚ)/25), ("Distemper", 4/5), ("Mastitis", 4/25)]).map
      DiagnosisResult.top3 =
    Except.ok [("Mastitis", (2 : ℚ)/3), ("Distemper", 1/6), ("Foot_and_Mouth", 1/6)] := by
  have e2 : insertDesc ("Distemper", (4 : ℚ)/5) [("Mastitis", 4/25)] =
      [("Distemper", 4/5), ("Mastitis", 4/25)] := by
    simp only [insertDesc]
    rw [if_pos (by norm_num)]
  have e3 : insertDesc ("Foot_and_Mouth", (1 : ℚ)/25)
      [("Distemper", 4/5), ("Mastitis", 4/25)] =
      [("Distemper", 4/5), ("Mastitis", 4/25), ("Foot_and_Mouth", 1/25)] := by
    simp only [insertDesc]
    rw [if_neg (by norm_num), if_neg (by norm_num)]
  have hsort1 : sortDesc
      [("Foot_and_Mouth", (1 : ℚ)/25), ("Distemper", 4/5), ("Mastitis", 4/25)] =
      [("Distemper", 4/5), ("Mastitis", 4/25), ("Foot_and_Mouth", 1/25)] := by
    show insertDesc ("Foot_and_Mouth", (1 : ℚ)/25)
        (insertDesc ("Distemper", 4/5)
          (insertDesc ("Mastitis", 4/25) (sortDesc []))) = _
    rw [show insertDesc ("Mastitis", (4 : ℚ)/25) (sortDesc []) =
        [("Mastitis", 4/25)] from rfl, e2, e3]
  have hdet : detectSpecies "cow sick" = some "cow" := by decide
  have hpen : penalizedList (some "cow")
      [("Distemper", (4 : ℚ)/5), ("Mastitis", 4/25), ("Foot_and_Mouth", 1/25)] =
      [("Distemper", 4/5 * penaltyFactor), ("Mastitis", 4/25),
       ("Foot_and_Mouth", 1/25)] := rfl
  have hpos : 0 < sumProbs (penalizedList (some "cow")
      [("Distemper", (4 : ℚ)/5), ("Mastitis", 4/25), ("Foot_and_Mouth", 1/25)]) := by
    rw [hpen]; norm_num [sumProbs, penaltyFactor]
  have hadj : speciesAdjust (some "cow")
      [("Distemper", (4 : ℚ)/5), ("Mastitis", 4/25), ("Foot_and_Mouth", 1/25)] =
      [("Distemper", (1 : ℚ)/6), ("Mastitis", 2/3), ("Foot_and_Mouth", 1/6)] := by
    rw [speciesAdjust_of_pos _ _ hpos, hpen]
    norm_num [sumProbs, penaltyFactor]
  have f1 : insertDesc ("Mastitis", (2 : ℚ)/3) [("Foot_and_Mouth", 1/6)] =
      [("Mastitis", 2/3), ("Foot_and_Mouth", 1/6)] := by
    simp only [insertDesc]
    rw [if_pos (by norm_num)]
  have f2 : insertDesc ("Distemper", (1 : ℚ)/6)
      [("Mastitis", 2/3), ("Foot_and_Mouth", 1/6)] =
      [("Mastitis", 2/3), ("Distemper", 1/6), ("Foot_and_Mouth", 1/6)] := by
    simp only [insertDesc]
    rw [if_neg (by norm_num), if_pos (by norm_num)]
  have hsort2 : sortDesc
      [("Distemper", (1 : ℚ)/6), ("Mastitis", 2/3), ("Foot_and_Mouth", 1/6)] =
      [("Mastitis", 2/3), ("Distemper", 1/6), ("Foot_and_Mouth", 1/6)] := by
    show insertDesc ("Distemper", (1 : ℚ)/6)
        (insertDesc ("Mastitis", 2/3)
          (insertDesc ("Foot_and_Mouth", 1/6) (sortDesc []))) = _
    rw [show insertDesc ("Foot_and_Mouth", (1 : ℚ)/6) (sortDesc []) =
        [("Foot_and_Mouth", 1/6)] from rfl, f1, f2]
  rw [run_eval "cow sick" _ ("Distemper", 4/5)
      [("Mastitis", 4/25), ("Foot_and_Mouth", 1/25)] (by decide) hsort1 (by norm_num)]
  show Except.ok ((rankPipeline "cow sick"
      [("Distemper", (4 : ℚ)/5), ("Mastitis", 4/25), ("Foot_and_Mouth", 1/25)]).top3) = _
  rw [rankPipeline_top3, hdet, hadj, hsort2]
  rfl

/-- C1: for every raw distribution with nonnegative probabilities summing to
1.0, the adjusted distribution produced by the species-penalty-and-renormalize
pass — for any detected species or none — has probabilities summing to 1.0
within tolerance 1e-9 (in this exact-rational model the sum is exactly 1). -/
theorem C1_adjusted_sum_one (detected : Option String)
    (dist : List (String × ℚ)) (hnn : ∀ e ∈ dist, 0 ≤ e.2)
    (hsum : sumProbs dist = 1) :
    |sumProbs (speciesAdjust detected dist) - 1| ≤ 1 / 1000000000 := by
  have hpos := penalizedList_sum_pos detected dist hnn hsum
  rw [speciesAdjust_of_pos detected dist hpos, sumProbs_map_div,
    div_self (ne_of_gt hpos)]
  norm_num

/-- C1 witness: the invariant instantiated at the concrete distribution
{Parvovirus: 1/2, Mastitis: 1/2} with detected species "cow". -/
theorem C1_adjusted_sum_one_witness :
    sumProbs [("Parvovirus", (1 : ℚ)/2), ("Mastitis", 1/2)] = 1 ∧
    |sumProbs (speciesAdjust (some "cow")
        [("Parvovirus", (1 : ℚ)/2), ("Mastitis", 1/2)]) - 1| ≤ 1 / 1000000000 := by
  have h1 : ∀ e ∈ [("Parvovirus", (1 : ℚ)/2), ("Mastitis", 1/2)], 0 ≤ e.2 := by
    intro e he
    rcases List.mem_cons.mp he with rfl | he
    · norm_num
    · rcases List.mem_cons.mp he with rfl | he
      · norm_num
      · exact absurd he (List.not_mem_nil e)
  have h2 : sumProbs [("Parvovirus", (1 : ℚ)/2), ("Mastitis", 1/2)] = 1 := by
    norm_num [sumProbs]
  exact ⟨h2, C1_adjusted_sum_one (some "cow") _ h1 h2⟩

/-- C2: what the code actually does at the degenerate all-zero distribution.
The fallback on `total <= 0` rebuilds the *already-penalized* (all-zero) list
and divides by the default `1.0`, so the output is all zeros (summing to 0) —
not the pre-penalty values renormalized and not a uniform distribution as the
claim requires. (No division by zero occurs, and no entry is negative.) -/
theorem C2_degenerate_fallback_noop :
    speciesAdjust (some "dog") [("Mastitis", (0 : ℚ)), ("Parvovirus", 0)] =
      [("Mastitis", 0), ("Parvovirus", 0)] ∧
    sumProbs (speciesAdjust (some "dog")
      [("Mastitis", (0 : ℚ)), ("Parvovirus", 0)]) = 0 := by
  have hpen : penalizedList (some "dog") [("Mastitis", (0 : ℚ)), ("Parvovirus", 0)] =
      [("Mastitis", 0 * penaltyFactor), ("Parvovirus", 0)] := rfl
  have h : speciesAdjust (some "dog") [("Mastitis", (0 : ℚ)), ("Parvovirus", 0)] =
      [("Mastitis", 0), ("Parvovirus", 0)] := by
    unfold speciesAdjust
    rw [hpen, sumProbs_map_id]
    rw [if_pos (by norm_num [sumProbs, penaltyFactor]),
      if_pos (by norm_num [sumProbs, penaltyFactor])]
    norm_num [penaltyFactor]
  exact ⟨h, by rw [h]; norm_num [sumProbs]⟩

/-- C3: the per-entry penalty policy of the adjustment loop: untagged disease
or no detected species leaves the probability unchanged; a single-species tag
multiplies by the 0.05 factor exactly when it differs from the detected
species; an underscore-joined multi-species tag multiplies by 0.05 exactly
when the detected species is not a member of the split tag set. -/
theorem C3_penalty_policy (detected : Option String) (d : String) (p : ℚ) :
    ((detected = none ∨ disease_species.lookup d = none) →
        penalizeProb detected d p = p) ∧
    (∀ sp tag, detected = some sp → disease_species.lookup d = some tag →
      ((hasUnderscore tag = false →
          (tag ≠ sp → penalizeProb detected d p = p * penaltyFactor) ∧
          (tag = sp → penalizeProb detected d p = p)) ∧
       (hasUnderscore tag = true →
          (sp ∉ splitTags tag → penalizeProb detected d p = p * penaltyFactor) ∧
          (sp ∈ splitTags tag → penalizeProb detected d p = p)))) := by
  constructor
  · rintro (rfl | h)
    · exact penalize_none d p
    · exact penalize_untagged detected d p h
  · rintro sp tag rfl hl
    rw [penalize_some_some sp tag d p hl]
    constructor
    · intro hu
      rw [hu]
      constructor
      · intro hne
        rw [if_neg (by simp), if_pos (Ne.symm hne)]
      · intro heq
        rw [if_neg (by simp), if_neg (by simp [heq])]
    · intro hu
      rw [hu]
      constructor
      · intro hm
        rw [if_pos rfl, if_neg hm]
      · intro hm
        rw [if_pos rfl, if_pos hm]

/-- C3 witness: Parvovirus (tag "dog") is penalized for detected species
"cow". -/
theorem C3_penalty_policy_witness :
    penalizeProb (some "cow") "Parvovirus" (3/5) = (3/5) * penaltyFactor :=
  (((C3_penalty_policy (some "cow") "Parvovirus" (3/5)).2 "cow" "dog" rfl
      (by decide)).1 (by decide)).1 (by decide)

/-- C5 counterexample: with all probability mass on penalized diseases the
renormalization exactly undoes the penalty. Here {Mastitis: 1, Parvovirus: 0}
with detected species "dog": Mastitis (tag "cow") is excluded and has
pre-adjustment probability 1 > 0, yet its adjusted probability is again 1 —
not strictly less, refuting the claim's strictness clause. -/
theorem C5_strict_counterexample :
    sumProbs [("Mastitis", (1 : ℚ)), ("Parvovirus", 0)] = 1 ∧
    tagExcludes "dog" "Mastitis" = true ∧
    speciesAdjust (some "dog") [("Mastitis", (1 : ℚ)), ("Parvovirus", 0)] =
      [("Mastitis", 1), ("Parvovirus", 0)] := by
  refine ⟨by norm_num [sumProbs], by decide, ?_⟩
  have hpen : penalizedList (some "dog") [("Mastitis", (1 : ℚ)), ("Parvovirus", 0)] =
      [("Mastitis", 1 * penaltyFactor), ("Parvovirus", 0)] := rfl
  have hpos : 0 < sumProbs (penalizedList (some "dog")
      [("Mastitis", (1 : ℚ)), ("Parvovirus", 0)]) := by
    rw [hpen]; norm_num [sumProbs, penaltyFactor]
  rw [speciesAdjust_of_pos _ _ hpos, hpen]
  norm_num [sumProbs, penaltyFactor]

/-- C5 (amended): for a raw distribution (nonnegative, summing to 1) and
detected species `sp`, every disease whose tag set excludes `sp` has adjusted
probability ≤ its pre-adjustment probability; the inequality is strict when
additionally its pre-adjustment probability is positive AND some entry that is
not penalized carries positive mass (without that side condition equality can
occur, as the counterexample shows). -/
theorem C5_penalty_monotone (sp : String) (dist : List (String × ℚ))
    (hnn : ∀ e ∈ dist, 0 ≤ e.2) (hsum : sumProbs dist = 1) :
    ∀ q ∈ dist.zip (speciesAdjust (some sp) dist),
      tagExcludes sp q.1.1 = true →
        q.2.2 ≤ q.1.2 ∧
        ((∃ e ∈ dist, tagExcludes sp e.1 = false ∧ 0 < e.2) →
          0 < q.1.2 → q.2.2 < q.1.2) := by
  have hpos := penalizedList_sum_pos (some sp) dist hnn hsum
  have hform : speciesAdjust (some sp) dist =
      dist.map fun a =>
        (a.1, penalizeProb (some sp) a.1 a.2 /
          sumProbs (penalizedList (some sp) dist)) := by
    rw [speciesAdjust_of_pos _ _ hpos]
    simp only [penalizedList, List.map_map]
    rfl
  intro q hq hex
  rw [hform, zip_map_self] at hq
  rcases List.mem_map.mp hq with ⟨a, ha, rfl⟩
  have hpa : penalizeProb (some sp) a.1 a.2 = a.2 * penaltyFactor :=
    penalize_of_excludes sp a.1 a.2 hex
  constructor
  · show penalizeProb (some sp) a.1 a.2 /
        sumProbs (penalizedList (some sp) dist) ≤ a.2
    rw [hpa, div_le_iff₀ hpos]
    exact mul_le_mul_of_nonneg_left
      (penaltyFactor_le_total (some sp) dist hnn hsum) (hnn a ha)
  · intro hw hposa
    show penalizeProb (some sp) a.1 a.2 /
        sumProbs (penalizedList (some sp) dist) < a.2
    rw [hpa, div_lt_iff₀ hpos]
    exact mul_lt_mul_of_pos_left
      (sum_lt_penalized sp dist hnn hsum hw) hposa

/-- C5 witness: at {Parvovirus: 1/2, Mastitis: 1/2} with detected "cow", the
excluded Parvovirus entry drops from 1/2 to 1/21, strictly. -/
theorem C5_penalty_monotone_witness :
    ((1 : ℚ)/21 ≤ 1/2) ∧ ((1 : ℚ)/21 < 1/2) := by
  have h1 : ∀ e ∈ [("Parvovirus", (1 : ℚ)/2), ("Mastitis", 1/2)], 0 ≤ e.2 := by
    intro e he
    rcases List.mem_cons.mp he with rfl | he
    · norm_num
    · rcases List.mem_cons.mp he with rfl | he
      · norm_num
      · exact absurd he (List.not_mem_nil e)
  have h2 : sumProbs [("Parvovirus", (1 : ℚ)/2), ("Mastitis", 1/2)] = 1 := by
    norm_num [sumProbs]
  have hpen : penalizedList (some "cow") [("Parvovirus", (1 : ℚ)/2), ("Mastitis", 1/2)] =
      [("Parvovirus", 1/2 * penaltyFactor), ("Mastitis", 1/2)] := rfl
  have hpos : 0 < sumProbs (penalizedList (some "cow")
      [("Parvovirus", (1 : ℚ)/2), ("Mastitis", 1/2)]) := by
    rw [hpen]; norm_num [sumProbs, penaltyFactor]
  have hadj : speciesAdjust (some "cow")
      [("Parvovirus", (1 : ℚ)/2), ("Mastitis", 1/2)] =
      [("Parvovirus", (1 : ℚ)/21), ("Mastitis", 20/21)] := by
    rw [speciesAdjust_of_pos _ _ hpos, hpen]
    norm_num [sumProbs, penaltyFactor]
  have hmem : ((("Parvovirus", (1 : ℚ)/2), ("Parvovirus", (1 : ℚ)/21)) :
      (String × ℚ) × (String × ℚ)) ∈
      [("Parvovirus", (1 : ℚ)/2), ("Mastitis", 1/2)].zip
        (speciesAdjust (some "cow") [("Parvovirus", (1 : ℚ)/2), ("Mastitis", 1/2)]) := by
    rw [hadj]
    exact List.mem_cons_self _ _
  have h := C5_penalty_monotone "cow" [("Parvovirus", (1 : ℚ)/2), ("Mastitis", 1/2)]
    h1 h2 (("Parvovirus", (1 : ℚ)/2), ("Parvovirus", (1 : ℚ)/21)) hmem (by decide)
  refine ⟨h.1, h.2 ⟨("Mastitis", 1/2), ?_, by decide, by norm_num⟩ (by norm_num)⟩
  exact List.mem_cons_of_mem _ (List.mem_cons_self _ _)

/-- C6: when every raw probability is strictly below the 0.10 threshold (and
the input is non-blank, so the empty-input branch is not taken), the pipeline
stops at the validity gate with the invalid-symptoms outcome and delivers no
ranked result. -/
theorem C6_validity_gate (input : String) (dist : List (String × ℚ))
    (hb : isBlank input = false) (hlow : ∀ e ∈ dist, e.2 < 1 / 10) :
    run input dist = Except.error Failure.invalidSymptoms := by
  unfold run
  rw [if_neg (by rw [hb]; exact Bool.false_ne_true)]
  cases hs : sortDesc dist with
  | nil => rfl
  | cons top rest =>
    have htop : top ∈ dist := by
      rw [← mem_sortDesc top dist, hs]
      exact List.mem_cons_self top rest
    show (if top.2 < 1 / 10 then Except.error Failure.invalidSymptoms
          else Except.ok (rankPipeline input (top :: rest))) =
      Except.error Failure.invalidSymptoms
    rw [if_pos (hlow top htop)]

/-- C6 witness: a 0.02-max distribution on a non-blank input is rejected. -/
theorem C6_validity_gate_witness :
    isBlank "asdf" = false ∧
    run "asdf" [("Parvovirus", (1 : ℚ)/50)] =
      Except.error Failure.invalidSymptoms := by
  have h2 : ∀ e ∈ [("Parvovirus", (1 : ℚ)/50)], e.2 < 1 / 10 := by
    intro e he
    rcases List.mem_cons.mp he with rfl | he
    · norm_num
    · exact absurd he (List.not_mem_nil e)
  exact ⟨by decide, C6_validity_gate "asdf" _ (by decide) h2⟩

/-- C10: the species-tag lookup is by the verbatim (case-sensitive) disease
identifier — any identifier that is not an exact key (here: the lowercase
"parvovirus" versus the catalog key "Parvovirus") is treated as untagged and
never penalized — while the Sinhala display name is looked up under the
stripped-and-lowercased identifier, with a placeholder (never an error) when
absent. -/
theorem C10_lookup_semantics (detected : Option String) (d : String) (p : ℚ) :
    (disease_species.lookup d = none → penalizeProb detected d p = p) ∧
    disease_species.lookup "parvovirus" = none ∧
    disease_species.lookup "Parvovirus" = some "dog" ∧
    displayName "  PARVOVIRUS " = "පාර්වෝ වෛරස් රෝගය (බල්ලා)" ∧
    displayName "No_Such_Disease" = "— සිංහල නාමය නොමැත —" :=
  ⟨penalize_untagged detected d p, by decide, by decide, by decide, by decide⟩

/-- C10 witness: the lowercase identifier "parvovirus" misses the catalog key
"Parvovirus", so its probability is untouched. -/
theorem C10_lookup_semantics_witness :
    penalizeProb (some "dog") "parvovirus" ((1 : ℚ)/2) = (1 : ℚ)/2 :=
  (C10_lookup_semantics (some "dog") "parvovirus" ((1 : ℚ)/2)).1 (by decide)

/-- C7: the species detector returns the first species, in the fixed order
dog, cat, cow, with a keyword occurring as a substring of the lowercased
input; it returns none exactly when no species' keyword matches (so at most
one species is ever returned, the earlier species shadowing the later). -/
theorem C7_species_first_match (input : String) :
    (detectSpecies input = some "dog" ↔
      keywordHit input ["dog", "බල්ලා", "canine"] = true) ∧
    (detectSpecies input = some "cat" ↔
      (keywordHit input ["dog", "බල්ලා", "canine"] = false ∧
       keywordHit input ["cat", "පූසා", "feline"] = true)) ∧
    (detectSpecies input = some "cow" ↔
      (keywordHit input ["dog", "බල්ලා", "canine"] = false ∧
       keywordHit input ["cat", "පූසා", "feline"] = false ∧
       keywordHit input ["cow", "ගවයා", "cattle", "ගෝමිය"] = true)) ∧
    (detectSpecies input = none ↔
      (keywordHit input ["dog", "බල්ලා", "canine"] = false ∧
       keywordHit input ["cat", "පූසා", "feline"] = false ∧
       keywordHit input ["cow", "ගවයා", "cattle", "ගෝමිය"] = false)) := by
  unfold detectSpecies keywordHit species_keywords
  cases h1 : List.any ["dog", "බල්ලා", "canine"] fun k => substrB k (lowerStr input) <;>
    cases h2 : List.any ["cat", "පූසා", "feline"] fun k => substrB k (lowerStr input) <;>
      cases h3 : List.any ["cow", "ගවයා", "cattle", "ගෝමිය"]
          fun k => substrB k (lowerStr input) <;>
        simp [List.findSome?, h1, h2, h3]

/-- C7 witness: "feline cow" contains keywords of both cat and cow, and the
detector returns cat, the earlier species in the fixed order. -/
theorem C7_species_first_match_witness :
    detectSpecies "feline cow" = some "cat" :=
  (C7_species_first_match "feline cow").2.1.mpr ⟨by decide, by decide⟩

/-- C9: any input whose lowercase form contains "cattle" but matches no dog
keyword is detected as species "cat" (never "cow"): the substring "cat"
occurs inside "cattle" and cat precedes cow in the fixed iteration order. -/
theorem C9_cattle_detected_as_cat (input : String)
    (hcattle : substrB "cattle" (lowerStr input) = true)
    (hdog : keywordHit input ["dog", "බල්ලා", "canine"] = false) :
    detectSpecies input = some "cat" := by
  have hcat : substrB "cat" (lowerStr input) = true := by
    have hsplit : ("cattle".data : List Char) = "cat".data ++ ['t', 'l', 'e'] := by
      decide
    unfold substrB at hcattle ⊢
    rw [hsplit] at hcattle
    exact seqHasSub_append_left _ _ _ hcattle
  unfold keywordHit at hdog
  unfold detectSpecies species_keywords
  have h2 : (List.any ["cat", "පූසා", "feline"]
      fun k => substrB k (lowerStr input)) = true := by
    simp [List.any_cons, hcat]
  simp [List.findSome?, hdog, h2]

/-- C9 witness: "cattle fever" is detected as "cat". -/
theorem C9_cattle_detected_as_cat_witness :
    detectSpecies "cattle fever" = some "cat" :=
  C9_cattle_detected_as_cat "cattle fever" (by decide) (by decide)

/-- C4 counterexample: raw distribution (in classifier/catalog order)
{Foot_and_Mouth: 0.04, Distemper: 0.8, Mastitis: 0.16} with input "cow sick".
Foot_and_Mouth and Distemper tie at adjusted probability 1/6, Foot_and_Mouth
precedes Distemper in the catalog order, yet the delivered ranking lists
Distemper before Foot_and_Mouth — ties follow the raw-probability-descending
pre-sorted order, not the original catalog order. -/
theorem C4_tie_order_counterexample :
    (run "cow sick"
        [("Foot_and_Mouth", (1 : ℚ)/25), ("Distemper", 4/5), ("Mastitis", 4/25)]).map
      DiagnosisResult.top3 =
      Except.ok [("Mastitis", (2 : ℚ)/3), ("Distemper", 1/6), ("Foot_and_Mouth", 1/6)] ∧
    ([("Mastitis", (2 : ℚ)/3), ("Distemper", 1/6), ("Foot_and_Mouth", 1/6)] :
        List (String × ℚ)) ≠
      [("Mastitis", (2 : ℚ)/3), ("Foot_and_Mouth", 1/6), ("Distemper", 1/6)] := by
  refine ⟨run_cex_eval, ?_⟩
  intro h
  have h2 := (List.cons.injEq _ _ _ _).mp h
  have h3 := (List.cons.injEq _ _ _ _).mp h2.2
  exact absurd (congrArg Prod.fst h3.1) (by decide)

/-- C4 (amended): the ranked result is the first 3 entries of the adjusted
distribution under a stable descending sort by probability, where ties keep
the order of the adjustment list — i.e. the raw-probability-descending
pre-sorted order of `all_df` — NOT the original catalog order (the filter
equation below is the stability property relative to that list). -/
theorem C4_ranked_stable_sort (input : String) (dist : List (String × ℚ))
    (r : DiagnosisResult) (h : run input dist = Except.ok r) :
    r.top3 = (sortDesc (speciesAdjust (detectSpecies input) (sortDesc dist))).take 3 ∧
    r.top3.Pairwise (fun a b => b.2 ≤ a.2) ∧
    ∀ c : ℚ,
      (sortDesc (speciesAdjust (detectSpecies input) (sortDesc dist))).filter
          (fun e => decide (e.2 = c)) =
        (speciesAdjust (detectSpecies input) (sortDesc dist)).filter
          (fun e => decide (e.2 = c)) := by
  rcases run_ok_inv input dist r h with ⟨-, top, rest, hs, -, rfl⟩
  rw [rankPipeline_top3, hs]
  exact ⟨rfl,
    List.Pairwise.sublist (List.take_sublist 3 _) (pairwise_sortDesc _),
    fun c => filter_sortDesc c _⟩

/-- C4 witness: the amended contract instantiated on the concrete successful
request `run "dog sick" demoDist`, with the stability equation taken at
probability 1. -/
theorem C4_ranked_stable_sort_witness :
    demoRes.top3 =
      (sortDesc (speciesAdjust (detectSpecies "dog sick") (sortDesc demoDist))).take 3 ∧
    demoRes.top3.Pairwise (fun a b => b.2 ≤ a.2) ∧
    (sortDesc (speciesAdjust (detectSpecies "dog sick") (sortDesc demoDist))).filter
        (fun e => decide (e.2 = 1)) =
      (speciesAdjust (detectSpecies "dog sick") (sortDesc demoDist)).filter
        (fun e => decide (e.2 = 1)) := by
  have h := C4_ranked_stable_sort "dog sick" demoDist demoRes run_demo_eval
  exact ⟨h.1, h.2.1, h.2.2 1⟩

/-- C8: for every delivered result, the alert flag is true iff some entry of
the top-3 has confidence percentage (probability × 100) at least 50. -/
theorem C8_alert_iff (input : String) (dist : List (String × ℚ))
    (r : DiagnosisResult) (h : run input dist = Except.ok r) :
    (r.alert_triggered = true ↔ ∃ e ∈ r.top3, 50 ≤ e.2 * 100) := by
  rcases run_ok_inv input dist r h with ⟨-, top, rest, -, -, rfl⟩
  rw [rankPipeline_alert, rankPipeline_top3, foldl_or]
  simp [List.any_eq_true]

/-- C8 witness: the delivered result of `run "dog sick" demoDist` has the
alert raised, and indeed its single top-3 entry has confidence 100 ≥ 50. -/
theorem C8_alert_iff_witness :
    run "dog sick" demoDist = Except.ok demoRes ∧
    (demoRes.alert_triggered = true ↔ ∃ e ∈ demoRes.top3, 50 ≤ e.2 * 100) :=
  ⟨run_demo_eval, C8_alert_iff "dog sick" demoDist demoRes run_demo_eval⟩

end AnimalDiseaseAI
